import Mathlib

/-!
Verification of the Bad Apple JS-errors player (`src/main.js`).

The development shallowly embeds the three pieces of the program that the
claims are about:

* the bitmap decoder living inside `readFrames` (header parsing via
  `littleEndianToInt`, and the pixel-walk loop that fills the frame matrix);
* the frame-file catalog ordering (the `content.sort` comparator inside
  `readFrames`);
* the playback scheduler `runAll` (bounded process queue, FIFO release,
  replenishment, and compensating per-frame sleep).

Buffers are `List Nat` of byte values, machine arithmetic is modelled on
`Nat`/`Int` with explicit wrap-around where JavaScript's 32-bit shift
matters, and the (possibly non-terminating) pixel-walk `while` loop is
modelled with explicit fuel: `none` means the given fuel was exhausted, and
termination of the loop is the proposition that some fuel suffices.
-/

/-- JavaScript `ToInt32`: reduce an integer into the signed 32-bit range,
as the `<<` operator does. -/
def jsInt32 (n : Int) : Int := (n + 2 ^ 31) % 2 ^ 32 - 2 ^ 31

/-- Embedding of `littleEndianToInt` (src/main.js:6-16): iterates the byte list from its
last element down to the first, doing `res = res << 8; res += bytes[i]`.
The shift is JavaScript's 32-bit signed shift, hence `jsInt32`; the
subsequent `+=` is exact number addition. -/
def littleEndianToInt (bytes : List Nat) : Int :=
  bytes.foldr (fun b res => jsInt32 (res * 256) + (b : Int)) 0

/-- Embedding of `buffer.subarray(s, e)`: the bytes in positions `[s, e)`, clamped to the
buffer. -/
def subarray (buf : List Nat) (s e : Nat) : List Nat :=
  (buf.take e).drop s

/-- The four header fields `readFrames` consumes (src/main.js:42-50). -/
structure RasterHeader where
  startingAddress : Int
  widthInPixels : Int
  heightInPixels : Int
  bpp : Int
  deriving DecidableEq

/-- Header parsing: reading of the four little-endian fields at fixed
offsets (src/main.js:42-50).  No length check is performed; a short buffer
just yields clamped (possibly empty) byte slices. -/
def parseHeader (buf : List Nat) : RasterHeader :=
  { startingAddress := littleEndianToInt (subarray buf 10 (10 + 4))
    widthInPixels := littleEndianToInt (subarray buf 18 (18 + 4))
    heightInPixels := littleEndianToInt (subarray buf 22 (22 + 4))
    bpp := littleEndianToInt (subarray buf 28 (28 + 2)) }

/-- A decoded frame: the sparse matrix `frame[pixelY][pixelX]` built by the
loop.  JavaScript arrays are keyed maps, so a cell query returns `none`
when the cell was never assigned. -/
def Frame : Type := Int → Int → Option Int

/-- The assignment `frame[pixelY][pixelX] = avg`. -/
def updCell (m : Frame) (y x v : Int) : Frame :=
  fun y2 x2 => if y2 = y ∧ x2 = x then some v else m y2 x2

/-- State of the pixel-walk `while` loop: the byte cursor and the frame
built so far. -/
structure WalkState where
  byteIndex : Nat
  frame : Frame

/-- One colour channel (src/main.js:78-85): the little-endian value of the
`bytesPerChannel` bytes starting at `byteIndex + bytesPerChannel * chIndex`. -/
def channelValue (buf : List Nat) (byteIndex bytesPerChannel chIndex : Nat) : Int :=
  littleEndianToInt
    (subarray buf (byteIndex + bytesPerChannel * chIndex)
      (byteIndex + bytesPerChannel * (chIndex + 1)))

/-- The pixel-walk `while` loop (src/main.js:64-104), with fuel.

The branch test in the source is `pixelX < widthInPixels` where
`pixelX = Math.floor(((byteIndex - startingAddress) % stride) / bytesPerPixel)`
and `stride = dataBytesInRow + paddingBytesInRow`.  When `stride = 0` the
JavaScript `%` yields `NaN` (and a zero `bytesPerPixel` likewise yields
`NaN`/`Infinity` after the division), and comparing that with
`widthInPixels` is false, so the `else` branch is taken; `stride = 0` and
`bytesPerPixel = 0` coincide here because `dataBytesInRow =
bytesPerPixel * widthInPixels` and `paddingBytesInRow = dataBytesInRow % 4`.
The guard `stride ≠ 0` makes that explicit; in the remaining cases all
quantities are finite non-negative numbers and `Nat` arithmetic matches. -/
def pixelWalk (buf : List Nat)
    (startingAddress widthInPixels heightInPixels bytesPerPixel
      dataBytesInRow paddingBytesInRow bytesPerChannel : Nat) :
    Nat → WalkState → Option Frame
  | 0, _ => none
  | fuel + 1, s =>
    if s.byteIndex < buf.length then
      let offset := s.byteIndex - startingAddress
      let stride := dataBytesInRow + paddingBytesInRow
      let pixelX := offset % stride / bytesPerPixel
      if stride ≠ 0 ∧ pixelX < widthInPixels then
        let pixelY : Int := (heightInPixels : Int) - 1 - (offset / stride : Nat)
        let r := channelValue buf s.byteIndex bytesPerChannel 0
        let g := channelValue buf s.byteIndex bytesPerChannel 1
        let b := channelValue buf s.byteIndex bytesPerChannel 2
        let avg := Int.fdiv (r + g + b) 3
        pixelWalk buf startingAddress widthInPixels heightInPixels bytesPerPixel
          dataBytesInRow paddingBytesInRow bytesPerChannel fuel
          ⟨s.byteIndex + bytesPerPixel, updCell s.frame pixelY (pixelX : Int) avg⟩
      else
        pixelWalk buf startingAddress widthInPixels heightInPixels bytesPerPixel
          dataBytesInRow paddingBytesInRow bytesPerChannel fuel
          ⟨s.byteIndex + paddingBytesInRow, s.frame⟩
    else
      some s.frame

/-- Decoding of one buffer: the body of the `fileContents` mapper in
`readFrames` (src/main.js:38-104).  Derived quantities follow
src/main.js:54-59; the divisions `bpp / 8` and `bytesPerPixel / 3` are
exact in JavaScript-observable cases treated here (`bpp` a multiple of 8,
in particular 24 and 0), where `Nat` division coincides. -/
def readFrame (buf : List Nat) (fuel : Nat) : Option Frame :=
  let hdr := parseHeader buf
  let startingAddress := hdr.startingAddress.toNat
  let widthInPixels := hdr.widthInPixels.toNat
  let heightInPixels := hdr.heightInPixels.toNat
  let bpp := hdr.bpp.toNat
  let bytesPerPixel := bpp / 8
  let dataBytesInRow := bytesPerPixel * widthInPixels
  let paddingBytesInRow := dataBytesInRow % 4
  let bytesPerChannel := bytesPerPixel / 3
  pixelWalk buf startingAddress widthInPixels heightInPixels bytesPerPixel
    dataBytesInRow paddingBytesInRow bytesPerChannel fuel
    ⟨startingAddress, fun _ _ => none⟩

/-- Cell query on the decoded frame, with the canonical sufficient fuel. -/
def cellAt (buf : List Nat) (y x : Int) : Option Int :=
  match readFrame buf (buf.length + 1) with
  | none => none
  | some f => f y x

/-- Termination of the decoder's pixel-walk loop on a given buffer: some
finite fuel makes it return. -/
def decodeTerminates (buf : List Nat) : Prop :=
  ∃ fuel, readFrame buf fuel ≠ none

/-- The byte at index `i` (0 beyond the end, mirroring how the clamped
`subarray` reads produce 0 there). -/
def byteAt (buf : List Nat) (i : Nat) : Nat := buf.getD i 0

/-- Grey value of the 24bpp pixel whose three channel bytes start at
`base`: the floor of the average of the three bytes. -/
def pixVal (buf : List Nat) (base : Nat) : Int :=
  Int.fdiv ((byteAt buf base : Int) + (byteAt buf (base + 1) : Int)
    + (byteAt buf (base + 2) : Int)) 3

/-- The decoder's row stride at 24bpp: data bytes plus the decoder's own
padding count `dataBytesInRow % 4` (src/main.js:54-56). -/
def stride24 (w : Nat) : Nat := 3 * w + (3 * w) % 4

/-- Modelled from the spec: the raster container itself pads each scan
line to a 4-byte boundary, so the true stride of a stored row is the data
bytes rounded up to a multiple of 4 (spec §4.1 and glossary, "Row
padding"); this is what a well-formed width-5 24bpp file uses (15 data
bytes + 1 padding byte).  Used to express what the *correct* pixel value
of a cell is, for comparison with the decoder. -/
def bmpRowStride (w : Nat) : Nat := 3 * w + (4 - (3 * w) % 4) % 4

/-- Modelled from the spec: the grey value the format actually stores for
output cell `(y, x)` of an image laid out with true 4-byte-aligned rows. -/
def bmpSpecCell (buf : List Nat) (sa w h y x : Nat) : Int :=
  pixVal buf (sa + (h - 1 - y) * bmpRowStride w + 3 * x)

/-- The 24bpp pixel walk with its canonical sufficient fuel
(`bytesPerPixel = 3`, `dataBytesInRow = 3 * w`,
`paddingBytesInRow = (3 * w) % 4`, `bytesPerChannel = 1`). -/
def walk24 (buf : List Nat) (sa w h : Nat) (s : WalkState) : Option Frame :=
  pixelWalk buf sa w h 3 (3 * w) (3 * w % 4) 1 (buf.length + 1) s

/-- Characterization of the frame produced by the rest of a 24bpp walk
that currently stands at raw row `r`, column `j`, over a buffer holding
`k` raw rows of pixel data (`k = h` when the pixel data is complete): the
cells still to be visited (raw row above `r` but below `k`, or row `r` at
column `≥ j`) hold the decoded grey value, everything else is whatever
the accumulated frame `m` holds.  Raw row `r` of the buffer lands at
output row `h - 1 - r`. -/
def writesFrom (buf : List Nat) (sa w h k r j : Nat) (m : Frame) : Frame :=
  fun y x =>
    if 0 ≤ y ∧ y < (h : Int) ∧ 0 ≤ x ∧ x < (w : Int) ∧ (h : Int) - 1 - y < (k : Int) ∧
        ((r : Int) < (h : Int) - 1 - y ∨ ((h : Int) - 1 - y = (r : Int) ∧ (j : Int) ≤ x))
    then some (pixVal buf (sa + (h - 1 - y.toNat) * stride24 w + 3 * x.toNat))
    else m y x

/-! ### Catalog ordering (src/main.js:22-36) -/

/-- Embedding of `s.slice(a, b)` on a JavaScript string: characters `[a, b)`, clamped. -/
def jsSlice (s : String) (a b : Nat) : String :=
  ((s.data.take b).drop a).asString

/-- Embedding of `parseInt` restricted to the shapes arising here: the longest leading
digit run, `none` when there is none (JavaScript's `NaN`).  The sliced
keys contain no sign or whitespace, so the leading-junk cases of the full
`parseInt` cannot arise. -/
def jsParseInt (s : String) : Option Nat :=
  let ds := s.data.takeWhile Char.isDigit
  if ds.isEmpty then none
  else some (ds.foldl (fun acc c => acc * 10 + (c.toNat - 48)) 0)

/-- The sort comparator of src/main.js:30-35 as a "not after" test:
`parseInt(c1.slice(4, 4 + digits)) - parseInt(c2.slice(4, 4 + digits)) ≤ 0`.
Per the ECMAScript sort specification a `NaN` comparator result counts as
0, i.e. the elements compare equal and keep their relative order. -/
def frameFileLE (digits : Nat) (c1 c2 : String) : Bool :=
  match jsParseInt (jsSlice c1 4 (4 + digits)), jsParseInt (jsSlice c2 4 (4 + digits)) with
  | some i1, some i2 => decide (i1 ≤ i2)
  | _, _ => true

/-- Stable insertion: the new element lands after every already-placed
element that the comparator does not put strictly after it. -/
def insertStable (le : String → String → Bool) (x : String) : List String → List String
  | [] => [x]
  | y :: ys => if le y x then y :: insertStable le x ys else x :: y :: ys

/-- Stable comparator sort, the behaviour guaranteed for
`Array.prototype.sort` (stable since ES2019, as implemented by Node):
elements in non-decreasing comparator order, ties keeping their original
relative order. -/
def stableSort (le : String → String → Bool) (l : List String) : List String :=
  l.foldl (fun acc x => insertStable le x acc) []

/-- The catalog ordering (src/main.js:22-36): the key width is the number
of decimal digits of the directory entry count, and entries are sorted by
the parsed numeric value of `name.slice(4, 4 + digits)`. -/
def sortFrameFiles (content : List String) : List String :=
  let digits := (toString content.length).length
  stableSort (frameFileLE digits) content

/-- Three files bearing 5-digit keys, in this directory order. -/
def files3 : List String := ["out_00002.bmp", "out_00010.bmp", "out_00001.bmp"]

/-- Ten files with unpadded numeric keys 1..10, listed here descending. -/
def files10 : List String :=
  ["out_10.bmp", "out_9.bmp", "out_8.bmp", "out_7.bmp", "out_6.bmp",
   "out_5.bmp", "out_4.bmp", "out_3.bmp", "out_2.bmp", "out_1.bmp"]

/-! ### Playback scheduler (src/main.js:172-256) -/

/-- What the scheduler loop records in one iteration: the worker index it
dequeued and signalled, the replenishment worker it forked (if any), the
pool size after replenishment, and that frame's measured elapsed time and
the compensating sleep. -/
structure IterLog where
  dequeued : Nat
  replenished : Option Nat
  queueLenAfter : Nat
  elapsedMs : Nat
  sleepMs : Int
  deriving DecidableEq

/-- The constant `millisBetweenFrames = Math.round((1 / fps) * 1000)`
(src/main.js:197), as exact rational rounding of `1000 / fps` (round half
up, like `Math.round`); this agrees with the double-precision computation
for the frame rates in use (e.g. 10, 20, 30, 60). -/
def millisBetweenFrames (fps : Nat) : Nat := (2 * 1000 + fps) / (2 * fps)

/-- The `for` loop of `runAll` (src/main.js:203-248), with the per-frame
wall-clock times supplied by the oracle `elapsed` (frame timing is an
external measurement).  Iteration `i`: `shift()` the queue head — an
empty pool throws `Error("Child pool empty")` — signal it, and on exit
fork frame `i + queueSize` when `i + queueSize < n`, pushing it at the
tail; then sleep `max(millisBetweenFrames - elapsedMillis, 0)`. -/
def runAllGo (n queueSize interval : Nat) (elapsed : Nat → Nat) :
    Nat → Nat → List Nat → Except String (List IterLog)
  | 0, _, _ => Except.ok []
  | rem + 1, i, q =>
    match q with
    | [] => Except.error "Child pool empty"
    | child :: rest =>
      let q2 := if i + queueSize < n then rest ++ [i + queueSize] else rest
      match runAllGo n queueSize interval elapsed rem (i + 1) q2 with
      | Except.error e => Except.error e
      | Except.ok logs =>
        let log : IterLog :=
          { dequeued := child
            replenished := if i + queueSize < n then some (i + queueSize) else none
            queueLenAfter := q2.length
            elapsedMs := elapsed i
            sleepMs := max ((interval : Int) - (elapsed i : Int)) 0 }
        Except.ok (log :: logs)

/-- Embedding of `runAll` (src/main.js:172-256): pre-fork workers `0 .. min(10, n) - 1`
(src/main.js:187-188), then run the main loop over all `n` frames. -/
def runAllSim (n fps : Nat) (elapsed : Nat → Nat) : Except String (List IterLog) :=
  let queueSize := min 10 n
  runAllGo n queueSize (millisBetweenFrames fps) elapsed n 0 (List.range queueSize)

/-- Closed form of the log entry of iteration `k` in a complete run. -/
def simLog (n queueSize interval : Nat) (elapsed : Nat → Nat) (k : Nat) : IterLog :=
  { dequeued := k
    replenished := if k + queueSize < n then some (k + queueSize) else none
    queueLenAfter := min queueSize (n - (k + 1))
    elapsedMs := elapsed k
    sleepMs := max ((interval : Int) - (elapsed k : Int)) 0 }



/-- A 36-byte buffer: header says start 30, width 1, height 1, 24bpp; one
pixel `[10, 20, 30]` then 3 decoder-padding bytes. -/
def c1buf : List Nat :=
  [0, 0, 0, 0, 0, 0, 0, 0, 0, 0,
   30, 0, 0, 0,
   0, 0, 0, 0,
   1, 0, 0, 0,
   1, 0, 0, 0,
   0, 0,
   24, 0,
   10, 20, 30, 7, 8, 9]

/-- A 42-byte buffer: width 1, height 2, 24bpp, decoder stride 6; raw bottom
row is `[9,9,9]`, raw top row is `[210,210,210]`. -/
def c2buf : List Nat :=
  [0, 0, 0, 0, 0, 0, 0, 0, 0, 0,
   30, 0, 0, 0,
   0, 0, 0, 0,
   1, 0, 0, 0,
   2, 0, 0, 0,
   0, 0,
   24, 0,
   9, 9, 9, 0, 0, 0,
   210, 210, 210, 0, 0, 0]

/-- A 62-byte buffer laid out as a true width-5 height-2 24bpp bitmap: each
scan line is 15 data bytes plus ONE padding byte (4-byte-aligned rows).
Raw bottom row bytes are 10..24 (padding 200), raw top row bytes are
100..114 (padding 201). -/
def c3badbuf : List Nat :=
  [0, 0, 0, 0, 0, 0, 0, 0, 0, 0,
   30, 0, 0, 0,
   0, 0, 0, 0,
   5, 0, 0, 0,
   2, 0, 0, 0,
   0, 0,
   24, 0,
   10, 11, 12, 13, 14, 15, 16, 17, 18, 19, 20, 21, 22, 23, 24, 200,
   100, 101, 102, 103, 104, 105, 106, 107, 108, 109, 110, 111, 112, 113, 114, 201]


/-- A 48-byte buffer: width 5, height 1, 24bpp, laid out with the decoder's
own stride (15 data bytes + 3 padding bytes). -/
def c3okbuf : List Nat :=
  [0, 0, 0, 0, 0, 0, 0, 0, 0, 0,
   30, 0, 0, 0,
   0, 0, 0, 0,
   5, 0, 0, 0,
   1, 0, 0, 0,
   0, 0,
   24, 0,
   10, 11, 12, 13, 14, 15, 16, 17, 18, 19, 20, 21, 22, 23, 24, 0, 0, 0]

/-- A 36-byte buffer whose header declares height 2 but whose pixel data
covers only one scan line: output row 0 is left unpopulated. -/
def c9buf : List Nat :=
  [0, 0, 0, 0, 0, 0, 0, 0, 0, 0,
   30, 0, 0, 0,
   0, 0, 0, 0,
   1, 0, 0, 0,
   2, 0, 0, 0,
   0, 0,
   24, 0,
   30, 60, 90, 0, 0, 0]

/-- A nonempty buffer of 31 zero bytes: every header field parses as 0, so
`bytesPerPixel = 0` and the loop makes no progress from byte 0. -/
def zeros31 : List Nat := List.replicate 31 0



section BasicLemmas

theorem jsInt32_zero : jsInt32 0 = 0 := by decide

theorem littleEndianToInt_singleton (b : Nat) : littleEndianToInt [b] = (b : Int) := by
  show jsInt32 (0 * 256) + (b : Int) = (b : Int)
  rw [zero_mul, jsInt32_zero, zero_add]

theorem byteAt_of_length_le (buf : List Nat) (i : Nat) (h : buf.length ≤ i) :
    byteAt buf i = 0 := by
  rw [byteAt, List.getD_eq_getElem?_getD]
  simp [List.getElem?_eq_none h]

theorem byteAt_le (buf : List Nat) (i : Nat) (hbytes : ∀ b ∈ buf, b < 256) :
    byteAt buf i ≤ 255 := by
  rw [byteAt, List.getD_eq_getElem?_getD]
  rcases h : buf[i]? with _ | v
  · simp
  · have hv : v ∈ buf := by
      rcases List.getElem?_eq_some.mp h with ⟨hlt, rfl⟩
      exact List.getElem_mem hlt
    have := hbytes _ hv
    simpa using Nat.lt_succ_iff.mp this

/-- The single-byte channel read of the 24bpp case is just the byte at
`byteIndex + chIndex` (0 past the end of the buffer, like the clamped
`subarray`). -/
theorem channelValue_one (buf : List Nat) (b c : Nat) :
    channelValue buf b 1 c = (byteAt buf (b + c) : Int) := by
  unfold channelValue subarray
  have h1 : b + 1 * c = b + c := by ring
  have h2 : b + 1 * (c + 1) = (b + c) + 1 := by ring
  have h3 : (b + c) + 1 - (b + c) = 1 := by omega
  rw [h1, h2, List.drop_take, h3]
  rcases hd : buf.drop (b + c) with _ | ⟨a, t⟩
  · rw [byteAt_of_length_le buf _ (List.drop_eq_nil_iff.mp hd)]
    rfl
  · have hsome : buf[b + c]? = some a := by
      have := List.getElem?_drop buf (b + c) 0
      rw [hd] at this
      simpa using this.symm
    rw [byteAt, List.getD_eq_getElem?_getD, hsome]
    simp only [List.take_succ_cons, List.take_zero, Option.getD_some]
    exact littleEndianToInt_singleton a

theorem pixVal_eq_natCast (buf : List Nat) (base : Nat) :
    pixVal buf base =
      (((byteAt buf base + byteAt buf (base + 1) + byteAt buf (base + 2)) / 3 : Nat) : Int) := by
  unfold pixVal
  rw [Int.fdiv_eq_tdiv (by positivity) (by norm_num)]
  have h : ((byteAt buf base : Int) + byteAt buf (base + 1) + byteAt buf (base + 2)) =
      ((byteAt buf base + byteAt buf (base + 1) + byteAt buf (base + 2) : Nat) : Int) := by
    push_cast; ring
  rw [h, show (3 : Int) = ((3 : Nat) : Int) from rfl, ← Int.ofNat_tdiv]

theorem pixVal_nonneg (buf : List Nat) (base : Nat) : 0 ≤ pixVal buf base := by
  rw [pixVal_eq_natCast]
  positivity

theorem pixVal_le (buf : List Nat) (base : Nat) (hbytes : ∀ b ∈ buf, b < 256) :
    pixVal buf base ≤ 255 := by
  rw [pixVal_eq_natCast]
  have h0 := byteAt_le buf base hbytes
  have h1 := byteAt_le buf (base + 1) hbytes
  have h2 := byteAt_le buf (base + 2) hbytes
  have : (byteAt buf base + byteAt buf (base + 1) + byteAt buf (base + 2)) / 3 ≤ 255 := by
    omega
  exact_mod_cast this

end BasicLemmas

section WalkLemmas

variable (buf : List Nat) (sa w h bpp d p bch : Nat)

theorem pixelWalk_succ (fuel : Nat) (s : WalkState) :
    pixelWalk buf sa w h bpp d p bch (fuel + 1) s =
      if s.byteIndex < buf.length then
        if d + p ≠ 0 ∧ (s.byteIndex - sa) % (d + p) / bpp < w then
          pixelWalk buf sa w h bpp d p bch fuel
            ⟨s.byteIndex + bpp,
              updCell s.frame ((h : Int) - 1 - ((s.byteIndex - sa) / (d + p) : Nat))
                (((s.byteIndex - sa) % (d + p) / bpp : Nat) : Int)
                (Int.fdiv (channelValue buf s.byteIndex bch 0
                  + channelValue buf s.byteIndex bch 1
                  + channelValue buf s.byteIndex bch 2) 3)⟩
        else
          pixelWalk buf sa w h bpp d p bch fuel ⟨s.byteIndex + p, s.frame⟩
      else some s.frame := rfl

theorem pixelWalk_done (fuel : Nat) (s : WalkState) (hs : buf.length ≤ s.byteIndex) :
    pixelWalk buf sa w h bpp d p bch (fuel + 1) s = some s.frame := by
  rw [pixelWalk_succ]
  rw [if_neg (by omega)]

/-- In a reachable `else` (padding) branch the padding count is positive:
with `d = bpp * w` and positive `bpp`, a data position never classifies as
padding unless `d + p` leaves room, i.e. `p ≥ 1`. -/
theorem padding_pos (hd : d = bpp * w) (hbpp : 1 ≤ bpp) (q : Nat)
    (hq : q < d + p) (hge : ¬q / bpp < w) : 1 ≤ p := by
  have hwq : w * bpp ≤ q := (Nat.le_div_iff_mul_le (by omega)).mp (by omega)
  have : d = w * bpp := by rw [hd]; ring
  omega

theorem pixelWalk_fuel_ext (hd : d = bpp * w) (hbpp : 1 ≤ bpp) (hw : 1 ≤ w) :
    ∀ f₁ f₂ : Nat, ∀ s : WalkState,
      buf.length - s.byteIndex < f₁ → buf.length - s.byteIndex < f₂ →
      pixelWalk buf sa w h bpp d p bch f₁ s = pixelWalk buf sa w h bpp d p bch f₂ s := by
  intro f₁
  induction f₁ with
  | zero => intro f₂ s h1 _; omega
  | succ n ih =>
    intro f₂ s h1 h2
    match f₂ with
    | 0 => omega
    | m + 1 =>
      rw [pixelWalk_succ, pixelWalk_succ]
      by_cases hb : s.byteIndex < buf.length
      · rw [if_pos hb, if_pos hb]
        by_cases hg2 : d + p ≠ 0 ∧ (s.byteIndex - sa) % (d + p) / bpp < w
        · rw [if_pos hg2, if_pos hg2]
          exact ih m _ (by simp only []; omega) (by simp only []; omega)
        · rw [if_neg hg2, if_neg hg2]
          have hdp : d + p ≠ 0 := by
            have : 1 ≤ d := by rw [hd]; exact Nat.one_le_iff_ne_zero.mpr (by positivity)
            omega
          have hp : 1 ≤ p := by
            apply padding_pos w bpp d p hd hbpp ((s.byteIndex - sa) % (d + p))
            · exact Nat.mod_lt _ (by omega)
            · intro hlt
              exact hg2 ⟨hdp, hlt⟩
          exact ih m _ (by simp only []; omega) (by simp only []; omega)
      · rw [if_neg hb, if_neg hb]

theorem pixelWalk_isSome (hd : d = bpp * w) (hbpp : 1 ≤ bpp) (hw : 1 ≤ w) :
    ∀ f : Nat, ∀ s : WalkState, buf.length - s.byteIndex < f →
      (pixelWalk buf sa w h bpp d p bch f s).isSome := by
  intro f
  induction f with
  | zero => intro s h1; omega
  | succ n ih =>
    intro s h1
    rw [pixelWalk_succ]
    by_cases hb : s.byteIndex < buf.length
    · rw [if_pos hb]
      by_cases hg2 : d + p ≠ 0 ∧ (s.byteIndex - sa) % (d + p) / bpp < w
      · rw [if_pos hg2]
        exact ih _ (by simp only []; omega)
      · rw [if_neg hg2]
        have hdp : d + p ≠ 0 := by
          have : 1 ≤ d := by rw [hd]; exact Nat.one_le_iff_ne_zero.mpr (by positivity)
          omega
        have hp : 1 ≤ p := by
          apply padding_pos w bpp d p hd hbpp ((s.byteIndex - sa) % (d + p))
          · exact Nat.mod_lt _ (by omega)
          · intro hlt
            exact hg2 ⟨hdp, hlt⟩
        exact ih _ (by simp only []; omega)
    · rw [if_neg hb]
      simp

/-- With `bytesPerPixel = 0` (hence zero data and padding bytes per row)
the loop makes no progress: every iteration takes the `else` branch and
adds 0 to `byteIndex`. -/
theorem pixelWalk_stuck_zero :
    ∀ fuel b : Nat, ∀ m : Frame, b < buf.length →
      pixelWalk buf sa w h 0 0 0 bch fuel ⟨b, m⟩ = none := by
  intro fuel
  induction fuel with
  | zero => intro b m _; rfl
  | succ n ih =>
    intro b m hb
    rw [pixelWalk_succ]
    rw [if_pos hb, if_neg (by simp)]
    simpa using ih b m hb

end WalkLemmas

section WritesFromLemmas

theorem writesFrom_of_le (buf : List Nat) (sa w h k r j : Nat) (m : Frame) (hr : k ≤ r) :
    writesFrom buf sa w h k r j m = m := by
  funext y x
  simp only [writesFrom]
  rw [if_neg]
  rintro ⟨h1, h2, h3, h4, h5, h6 | ⟨h6, h7⟩⟩ <;> omega

/-- Removing the cell about to be written from the remaining set: if the
remaining set at `(r, j)` is the remaining set at `(r2, j2)` plus exactly
the raw cell `(r, j)`, then one `updCell` bridges the two accumulated
frames. -/
theorem writesFrom_insert (buf : List Nat) (sa w h k r j r2 j2 : Nat) (m : Frame)
    (hkh : k ≤ h) (hrk : r < k)
    (hset : ∀ y x : Int,
      (0 ≤ y ∧ y < (h : Int) ∧ 0 ≤ x ∧ x < (w : Int) ∧ (h : Int) - 1 - y < (k : Int) ∧
        ((r : Int) < (h : Int) - 1 - y ∨ ((h : Int) - 1 - y = (r : Int) ∧ (j : Int) ≤ x)))
      ↔ ((0 ≤ y ∧ y < (h : Int) ∧ 0 ≤ x ∧ x < (w : Int) ∧ (h : Int) - 1 - y < (k : Int) ∧
        ((r2 : Int) < (h : Int) - 1 - y ∨ ((h : Int) - 1 - y = (r2 : Int) ∧ (j2 : Int) ≤ x)))
        ∨ (y = (h : Int) - 1 - (r : Int) ∧ x = (j : Int)))) :
    writesFrom buf sa w h k r j m =
      writesFrom buf sa w h k r2 j2
        (updCell m ((h : Int) - 1 - (r : Int)) (j : Int)
          (pixVal buf (sa + r * stride24 w + 3 * j))) := by
  funext y x
  simp only [writesFrom, updCell]
  by_cases hC2 : 0 ≤ y ∧ y < (h : Int) ∧ 0 ≤ x ∧ x < (w : Int) ∧ (h : Int) - 1 - y < (k : Int) ∧
      ((r2 : Int) < (h : Int) - 1 - y ∨ ((h : Int) - 1 - y = (r2 : Int) ∧ (j2 : Int) ≤ x))
  · rw [if_pos hC2, if_pos ((hset y x).mpr (Or.inl hC2))]
  · rw [if_neg hC2]
    by_cases hT : y = (h : Int) - 1 - (r : Int) ∧ x = (j : Int)
    · obtain ⟨hy, hx⟩ := hT
      have hC1 := (hset y x).mpr (Or.inr ⟨hy, hx⟩)
      rw [if_pos hC1, if_pos ⟨hy, hx⟩]
      have ha : h - 1 - y.toNat = r := by omega
      have hb : x.toNat = j := by omega
      rw [ha, hb]
    · rw [if_neg hT, if_neg (fun hC1 => by
        rcases (hset y x).mp hC1 with h1 | h1
        · exact hC2 h1
        · exact hT h1)]

theorem writesFrom_step_mid (buf : List Nat) (sa w h k r j : Nat) (m : Frame)
    (hkh : k ≤ h) (hrk : r < k) (hj : j < w) :
    writesFrom buf sa w h k r j m =
      writesFrom buf sa w h k r (j + 1)
        (updCell m ((h : Int) - 1 - (r : Int)) (j : Int)
          (pixVal buf (sa + r * stride24 w + 3 * j))) := by
  apply writesFrom_insert buf sa w h k r j r (j + 1) m hkh hrk
  intro y x
  omega

theorem writesFrom_step_row (buf : List Nat) (sa w h k r j : Nat) (m : Frame)
    (hkh : k ≤ h) (hrk : r < k) (hj : j + 1 = w) :
    writesFrom buf sa w h k r j m =
      writesFrom buf sa w h k (r + 1) 0
        (updCell m ((h : Int) - 1 - (r : Int)) (j : Int)
          (pixVal buf (sa + r * stride24 w + 3 * j))) := by
  apply writesFrom_insert buf sa w h k r j (r + 1) 0 m hkh hrk
  intro y x
  omega

end WritesFromLemmas

section Walk24Lemmas

theorem stride24_pos (w : Nat) (hw : 1 ≤ w) : 3 * w ≤ stride24 w ∧ stride24 w ≠ 0 := by
  unfold stride24
  omega

theorem walk24_done (buf : List Nat) (sa w h b : Nat) (m : Frame)
    (hge : buf.length ≤ b) : walk24 buf sa w h ⟨b, m⟩ = some m :=
  pixelWalk_done buf sa w h 3 (3 * w) (3 * w % 4) 1 buf.length ⟨b, m⟩ hge

theorem walk24_pixel (buf : List Nat) (sa w h : Nat) (hw : 1 ≤ w) (b : Nat) (m : Frame)
    (hblt : b < buf.length) (hoff : (b - sa) % stride24 w < 3 * w) :
    walk24 buf sa w h ⟨b, m⟩ =
      walk24 buf sa w h ⟨b + 3,
        updCell m ((h : Int) - 1 - ((b - sa) / stride24 w : Nat))
          (((b - sa) % stride24 w / 3 : Nat) : Int) (pixVal buf b)⟩ := by
  unfold walk24
  rw [pixelWalk_succ]
  have hst : 3 * w + 3 * w % 4 = stride24 w := rfl
  rw [if_pos hblt, if_pos (by
    constructor
    · show 3 * w + 3 * w % 4 ≠ 0
      omega
    · show (b - sa) % (3 * w + 3 * w % 4) / 3 < w
      rw [hst]
      exact (Nat.div_lt_iff_lt_mul (by norm_num)).mpr (by omega))]
  rw [show (⟨b, m⟩ : WalkState).byteIndex + 3 = b + 3 from rfl]
  have hch : Int.fdiv (channelValue buf (⟨b, m⟩ : WalkState).byteIndex 1 0
      + channelValue buf (⟨b, m⟩ : WalkState).byteIndex 1 1
      + channelValue buf (⟨b, m⟩ : WalkState).byteIndex 1 2) 3 = pixVal buf b := by
    show Int.fdiv (channelValue buf b 1 0 + channelValue buf b 1 1 + channelValue buf b 1 2) 3
      = pixVal buf b
    rw [channelValue_one, channelValue_one, channelValue_one]
    show Int.fdiv ((byteAt buf (b + 0) : Int) + (byteAt buf (b + 1) : Int)
      + (byteAt buf (b + 2) : Int)) 3 = pixVal buf b
    rw [Nat.add_zero]
    rfl
  rw [hch]
  apply pixelWalk_fuel_ext buf sa w h 3 (3 * w) (3 * w % 4) 1 rfl (by norm_num) hw
  · show buf.length - (b + 3) < buf.length
    omega
  · show buf.length - (b + 3) < buf.length + 1
    omega

theorem walk24_pad (buf : List Nat) (sa w h : Nat) (hw : 1 ≤ w) (b : Nat) (m : Frame)
    (hblt : b < buf.length) (hoff : 3 * w ≤ (b - sa) % stride24 w) :
    walk24 buf sa w h ⟨b, m⟩ = walk24 buf sa w h ⟨b + 3 * w % 4, m⟩ := by
  have hoff2 : 3 * w ≤ (b - sa) % (3 * w + 3 * w % 4) := hoff
  have hp : 1 ≤ 3 * w % 4 := by
    have hl := Nat.mod_lt (b - sa) (show 0 < 3 * w + 3 * w % 4 by omega)
    omega
  unfold walk24
  rw [pixelWalk_succ]
  dsimp only
  rw [if_pos hblt, if_neg (by
    rintro ⟨-, hlt⟩
    have h2 := (Nat.div_lt_iff_lt_mul (show 0 < 3 by norm_num)).mp hlt
    omega)]
  apply pixelWalk_fuel_ext buf sa w h 3 (3 * w) (3 * w % 4) 1 rfl (by norm_num) hw
  · show buf.length - (b + 3 * w % 4) < buf.length
    omega
  · show buf.length - (b + 3 * w % 4) < buf.length + 1
    omega

/-- Master characterization of a 24bpp walk over `k` stored raw rows
(`k = h` for complete pixel data): standing at the start
of column `j` of raw row `r`, the walk completes and produces exactly the
remaining cells on top of the accumulated frame. -/
theorem walk24_main (buf : List Nat) (sa w h k : Nat) (hw : 1 ≤ w) (hkh : k ≤ h)
    (hlen : buf.length = sa + k * stride24 w) :
    ∀ n r j : Nat, ∀ m : Frame, r < k → j < w → n = (k - r) * w - j →
      walk24 buf sa w h ⟨sa + r * stride24 w + 3 * j, m⟩ =
        some (writesFrom buf sa w h k r j m) := by
  intro n
  induction n using Nat.strong_induction_on with
  | _ n ih =>
    intro r j m hr hj hn
    have hs3 : 3 * w ≤ stride24 w := (stride24_pos w hw).1
    have hmul : (r + 1) * stride24 w ≤ k * stride24 w :=
      Nat.mul_le_mul_right _ (by omega)
    have hrs : (r + 1) * stride24 w = r * stride24 w + stride24 w := by ring
    have hblt : sa + r * stride24 w + 3 * j < buf.length := by
      rw [hlen]
      omega
    have hsub : sa + r * stride24 w + 3 * j - sa = 3 * j + stride24 w * r := by
      rw [Nat.add_assoc, Nat.add_sub_cancel_left]
      ring
    have hmod : (sa + r * stride24 w + 3 * j - sa) % stride24 w = 3 * j := by
      rw [hsub, Nat.add_mul_mod_self_left]
      exact Nat.mod_eq_of_lt (by omega)
    have hdiv : (sa + r * stride24 w + 3 * j - sa) / stride24 w = r := by
      rw [hsub, Nat.add_mul_div_left _ _ (by omega)]
      rw [Nat.div_eq_of_lt (by omega)]
      omega
    rw [walk24_pixel buf sa w h hw _ m hblt (by rw [hmod]; omega)]
    rw [hmod, hdiv, Nat.mul_div_cancel_left j (by norm_num : 0 < 3)]
    set m2 : Frame := updCell m ((h : Int) - 1 - (r : Nat)) ((j : Nat) : Int)
      (pixVal buf (sa + r * stride24 w + 3 * j)) with hm2
    by_cases hjw : j + 1 < w
    · have hpos : sa + r * stride24 w + 3 * j + 3 = sa + r * stride24 w + 3 * (j + 1) := by
        ring
      rw [hpos]
      have hwle : w ≤ (k - r) * w := Nat.le_mul_of_pos_left w (by omega)
      rw [ih ((k - r) * w - (j + 1)) (by omega) r (j + 1) m2 hr hjw rfl]
      rw [← writesFrom_step_mid buf sa w h k r j m hkh hr hj]
    · have hjw2 : j + 1 = w := by omega
      -- after the last pixel of the row the cursor sits at the row's data end
      have hde : sa + r * stride24 w + 3 * j + 3 = sa + r * stride24 w + 3 * w := by
        omega
      rw [hde]
      -- cross the padding (if any) to the start of the next row
      have hrow : walk24 buf sa w h ⟨sa + r * stride24 w + 3 * w, m2⟩ =
          walk24 buf sa w h ⟨sa + (r + 1) * stride24 w, m2⟩ := by
        by_cases hp : 3 * w % 4 = 0
        · have : sa + r * stride24 w + 3 * w = sa + (r + 1) * stride24 w := by
            have : stride24 w = 3 * w := by unfold stride24; omega
            rw [this]
            ring
          rw [this]
        · have hpadlt : sa + r * stride24 w + 3 * w < buf.length := by
            rw [hlen]
            have : stride24 w = 3 * w + 3 * w % 4 := rfl
            omega
          rw [walk24_pad buf sa w h hw _ m2 hpadlt (by
            have hsub2 : sa + r * stride24 w + 3 * w - sa = 3 * w + stride24 w * r := by
              omega
            rw [hsub2, Nat.add_mul_mod_self_left]
            rw [Nat.mod_eq_of_lt (by unfold stride24; omega)])]
          have : sa + r * stride24 w + 3 * w + 3 * w % 4 = sa + (r + 1) * stride24 w := by
            have hst : stride24 w = 3 * w + 3 * w % 4 := rfl
            rw [hrs, hst]
            omega
          rw [this]
      rw [hrow]
      by_cases hrh : r + 1 < k
      · have : sa + (r + 1) * stride24 w = sa + (r + 1) * stride24 w + 3 * 0 := by ring
        rw [this]
        have hmeasure : (k - (r + 1)) * w - 0 < n := by
          have h1 : k - r = (k - (r + 1)) + 1 := by omega
          have h2 : (k - r) * w = (k - (r + 1)) * w + w := by
            rw [h1, Nat.succ_mul]
          omega
        rw [ih ((k - (r + 1)) * w - 0) hmeasure (r + 1) 0 m2 hrh (by omega) rfl]
        rw [← writesFrom_step_row buf sa w h k r j m hkh hr hjw2]
      · have hrh2 : r + 1 = k := by omega
        rw [walk24_done buf sa w h _ m2 (by rw [hlen, ← hrh2])]
        rw [writesFrom_step_row buf sa w h k r j m hkh hr hjw2]
        rw [writesFrom_of_le buf sa w h k (r + 1) 0 m2 (by omega)]

end Walk24Lemmas

section ReadFrameValid

/-- Under a 24bpp header, `readFrame` is the 24bpp walk started at the
parsed pixel-data offset with an empty frame. -/
theorem readFrame_eq_walk24 (buf : List Nat) (sa w h : Nat)
    (hhdr : parseHeader buf = ⟨(sa : Int), (w : Int), (h : Int), 24⟩) :
    readFrame buf (buf.length + 1) = walk24 buf sa w h ⟨sa, fun _ _ => none⟩ := by
  unfold readFrame walk24
  rw [hhdr]
  simp only [Int.toNat_natCast]
  rw [show Int.toNat 24 / 8 = 3 from rfl]

/-- A valid 24bpp buffer (header as stated, at least one row and one
column, and exactly `h` rows of the decoder's stride after the pixel-data
offset) decodes to the full matrix of channel averages. -/
theorem readFrame_valid (buf : List Nat) (sa w h : Nat)
    (hhdr : parseHeader buf = ⟨(sa : Int), (w : Int), (h : Int), 24⟩)
    (hw : 1 ≤ w) (hh : 1 ≤ h)
    (hlen : buf.length = sa + h * stride24 w) :
    readFrame buf (buf.length + 1) =
      some (writesFrom buf sa w h h 0 0 (fun _ _ => none)) := by
  rw [readFrame_eq_walk24 buf sa w h hhdr]
  have := walk24_main buf sa w h h hw (le_refl h) hlen ((h - 0) * w - 0) 0 0 (fun _ _ => none)
    (by omega) (by omega) rfl
  have hpos : sa + 0 * stride24 w + 3 * 0 = sa := by ring
  rw [hpos] at this
  exact this

end ReadFrameValid

section ClaimC1

/-- C1: for every valid raster buffer (24 bits per pixel, well-formed
header, and complete pixel data — exactly `h` rows of the decoder's row
stride after the pixel-data offset), the decoded Frame has exactly `h`
rows and `w` columns (cells exist exactly at `0 ≤ y < h`, `0 ≤ x < w`),
and every cell is an integer in `[0, 255]`, namely the floor of the
average of the three little-endian channel bytes of its pixel. -/
theorem c1_decode_shape (buf : List Nat) (sa w h : Nat)
    (hhdr : parseHeader buf = ⟨(sa : Int), (w : Int), (h : Int), 24⟩)
    (hw : 1 ≤ w) (hh : 1 ≤ h)
    (hbytes : ∀ b ∈ buf, b < 256)
    (hlen : buf.length = sa + h * stride24 w) :
    ∃ f : Frame, readFrame buf (buf.length + 1) = some f ∧
      (∀ y x : Int, (f y x).isSome ↔ 0 ≤ y ∧ y < (h : Int) ∧ 0 ≤ x ∧ x < (w : Int)) ∧
      (∀ y x v : Int, f y x = some v → 0 ≤ v ∧ v ≤ 255) ∧
      (∀ y x : Int, 0 ≤ y → y < (h : Int) → 0 ≤ x → x < (w : Int) →
        f y x = some (pixVal buf (sa + (h - 1 - y.toNat) * stride24 w + 3 * x.toNat))) := by
  refine ⟨writesFrom buf sa w h h 0 0 (fun _ _ => none),
    readFrame_valid buf sa w h hhdr hw hh hlen, ?_, ?_, ?_⟩
  · intro y x
    simp only [writesFrom]
    split_ifs with hc
    · simp only [Option.isSome_some, true_iff]
      omega
    · simp only [Option.isSome_none, Bool.false_eq_true, false_iff]
      intro hb
      exact hc (by omega)
  · intro y x v hv
    simp only [writesFrom] at hv
    split_ifs at hv with hc
    · cases hv
      exact ⟨pixVal_nonneg _ _, pixVal_le _ _ hbytes⟩
  · intro y x h1 h2 h3 h4
    simp only [writesFrom]
    rw [if_pos (by omega)]

/-- Witness for C1 on the 36-byte 1×1 buffer `c1buf`. -/
theorem c1_decode_shape_witness :
    (parseHeader c1buf = ⟨(30 : Nat), (1 : Nat), (1 : Nat), 24⟩ ∧ 1 ≤ 1 ∧
      (∀ b ∈ c1buf, b < 256) ∧ c1buf.length = 30 + 1 * stride24 1) ∧
    (∃ f : Frame, readFrame c1buf (c1buf.length + 1) = some f ∧
      (∀ y x : Int, (f y x).isSome ↔ 0 ≤ y ∧ y < ((1 : Nat) : Int) ∧ 0 ≤ x ∧ x < ((1 : Nat) : Int)) ∧
      (∀ y x v : Int, f y x = some v → 0 ≤ v ∧ v ≤ 255) ∧
      (∀ y x : Int, 0 ≤ y → y < ((1 : Nat) : Int) → 0 ≤ x → x < ((1 : Nat) : Int) →
        f y x = some (pixVal c1buf (30 + (1 - 1 - y.toNat) * stride24 1 + 3 * x.toNat)))) :=
  ⟨⟨by decide, by decide, by decide, by decide⟩,
    c1_decode_shape c1buf 30 1 1 (by decide) (by decide) (by decide) (by decide) (by decide)⟩

end ClaimC1

section ClaimC2

/-- C2: for every valid raster buffer, the pixel decoded from raw-data
row `r` (rows counted upward from `startingAddress` in address order) at
column `x` is stored at output position `(h - 1 - r, x)`: source rows are
bottom-to-top, the output Frame is top-to-bottom. -/
theorem c2_row_inversion (buf : List Nat) (sa w h : Nat)
    (hhdr : parseHeader buf = ⟨(sa : Int), (w : Int), (h : Int), 24⟩)
    (hw : 1 ≤ w) (hh : 1 ≤ h)
    (hlen : buf.length = sa + h * stride24 w)
    (r x : Nat) (hr : r < h) (hx : x < w) :
    ∃ f : Frame, readFrame buf (buf.length + 1) = some f ∧
      f ((h : Int) - 1 - (r : Int)) ((x : Nat) : Int) =
        some (pixVal buf (sa + r * stride24 w + 3 * x)) := by
  refine ⟨writesFrom buf sa w h h 0 0 (fun _ _ => none),
    readFrame_valid buf sa w h hhdr hw hh hlen, ?_⟩
  simp only [writesFrom]
  rw [if_pos (by omega)]
  have ha : h - 1 - ((h : Int) - 1 - (r : Int)).toNat = r := by omega
  have hb : (((x : Nat) : Int)).toNat = x := by omega
  rw [ha, hb]

/-- Witness for C2 on the synthetic 2-row buffer `c2buf`: the last raw
scan line (raw row 1, bytes `[210,210,210]`) appears as output row 0. -/
theorem c2_row_inversion_witness :
    (parseHeader c2buf = ⟨(30 : Nat), (1 : Nat), (2 : Nat), 24⟩ ∧
      c2buf.length = 30 + 2 * stride24 1 ∧ 1 < 2 ∧ 0 < 1) ∧
    (∃ f : Frame, readFrame c2buf (c2buf.length + 1) = some f ∧
      f (((2 : Nat) : Int) - 1 - ((1 : Nat) : Int)) ((0 : Nat) : Int) =
        some (pixVal c2buf (30 + 1 * stride24 1 + 3 * 0))) :=
  ⟨⟨by decide, by decide, by decide, by decide⟩,
    c2_row_inversion c2buf 30 1 2 (by decide) (by decide) (by decide) (by decide)
      1 0 (by decide) (by decide)⟩

end ClaimC2

section ClaimC3

/-- C3 counterexample: `c3badbuf` is a true width-5 24bpp bitmap (15 data
bytes and 1 real padding byte per row), but the decoder — whose per-row
padding is `dataBytesInRow % 4 = 3` — misaligns every row after the first
and even folds a stored padding byte into a pixel: output cell `(0,0)`
should be 101 but decodes to 103, and cell `(0,4)` should be 113 but
decodes to 105 (its computed average includes the padding byte 201). -/
theorem c3_counterexample :
    cellAt c3badbuf 0 0 ≠ some (bmpSpecCell c3badbuf 30 5 2 0 0) ∧
    cellAt c3badbuf 0 0 = some 103 ∧ bmpSpecCell c3badbuf 30 5 2 0 0 = 101 ∧
    cellAt c3badbuf 0 4 = some 105 ∧ bmpSpecCell c3badbuf 30 5 2 0 4 = 113 := by
  refine ⟨by decide, by decide, by decide, by decide, by decide⟩

/-- C3 amended: for a 24bpp buffer with `dataBytesInRow % 4 ≠ 0` whose
rows are laid out with the decoder's own stride
(`dataBytesInRow + dataBytesInRow % 4`), every output row still has
exactly `w` populated columns, and every cell is the channel average of
bytes lying inside the row's 15-byte data region (never a padding
position: the read offsets `3x .. 3x+2` stay below `dataBytesInRow`). -/
theorem c3_amended (buf : List Nat) (sa w h : Nat)
    (hhdr : parseHeader buf = ⟨(sa : Int), (w : Int), (h : Int), 24⟩)
    (hw : 1 ≤ w) (hh : 1 ≤ h)
    (hlen : buf.length = sa + h * stride24 w)
    (hpad : 3 * w % 4 ≠ 0) :
    ∃ f : Frame, readFrame buf (buf.length + 1) = some f ∧
      (∀ y : Int, 0 ≤ y → y < (h : Int) →
        ∀ x : Int, ((f y x).isSome ↔ 0 ≤ x ∧ x < (w : Int))) ∧
      (∀ r x : Nat, r < h → x < w →
        f ((h : Int) - 1 - (r : Int)) ((x : Nat) : Int) =
          some (pixVal buf (sa + r * stride24 w + 3 * x)) ∧ 3 * x + 2 < 3 * w) := by
  refine ⟨writesFrom buf sa w h h 0 0 (fun _ _ => none),
    readFrame_valid buf sa w h hhdr hw hh hlen, ?_, ?_⟩
  · intro y hy0 hyh x
    simp only [writesFrom]
    split_ifs with hc
    · simp only [Option.isSome_some, true_iff]
      omega
    · simp only [Option.isSome_none, Bool.false_eq_true, false_iff]
      intro hb
      exact hc (by omega)
  · intro r x hr hx
    constructor
    · simp only [writesFrom]
      rw [if_pos (by omega)]
      have ha : h - 1 - ((h : Int) - 1 - (r : Int)).toNat = r := by omega
      have hb : (((x : Nat) : Int)).toNat = x := by omega
      rw [ha, hb]
    · omega

/-- Witness for the amended C3 on `c3okbuf` (width 5, one row, decoder
stride 18 = 15 + 15 % 4). -/
theorem c3_amended_witness :
    (parseHeader c3okbuf = ⟨(30 : Nat), (5 : Nat), (1 : Nat), 24⟩ ∧
      c3okbuf.length = 30 + 1 * stride24 5 ∧ 3 * 5 % 4 ≠ 0) ∧
    (∃ f : Frame, readFrame c3okbuf (c3okbuf.length + 1) = some f ∧
      (∀ y : Int, 0 ≤ y → y < ((1 : Nat) : Int) →
        ∀ x : Int, ((f y x).isSome ↔ 0 ≤ x ∧ x < ((5 : Nat) : Int))) ∧
      (∀ r x : Nat, r < 1 → x < 5 →
        f (((1 : Nat) : Int) - 1 - (r : Int)) ((x : Nat) : Int) =
          some (pixVal c3okbuf (30 + r * stride24 5 + 3 * x)) ∧ 3 * x + 2 < 3 * 5)) :=
  ⟨⟨by decide, by decide, by decide⟩,
    c3_amended c3okbuf 30 5 1 (by decide) (by decide) (by decide) (by decide) (by decide)⟩

end ClaimC3

section ClaimC8

/-- A buffer too short to contain any byte of the bits-per-pixel field
(length ≤ 28) parses `bpp = 0`: the clamped 2-byte slice at offset 28 is
empty and `littleEndianToInt [] = 0`. -/
theorem parseHeader_bpp_short (buf : List Nat) (hlen : buf.length ≤ 28) :
    (parseHeader buf).bpp = 0 := by
  show littleEndianToInt (subarray buf 28 (28 + 2)) = 0
  unfold subarray
  rw [List.take_of_length_le (by omega), List.drop_eq_nil_of_le (by omega)]
  rfl

/-- On a header-less buffer the decoder runs the walk with
`bytesPerPixel = dataBytesInRow = paddingBytesInRow = bytesPerChannel = 0`. -/
theorem readFrame_short (buf : List Nat) (hlen : buf.length ≤ 28) (fuel : Nat) :
    readFrame buf fuel =
      pixelWalk buf (parseHeader buf).startingAddress.toNat
        (parseHeader buf).widthInPixels.toNat
        (parseHeader buf).heightInPixels.toNat 0 0 0 0 fuel
        ⟨(parseHeader buf).startingAddress.toNat, fun _ _ => none⟩ := by
  unfold readFrame
  dsimp only
  rw [parseHeader_bpp_short buf hlen]
  norm_num

/-- C8 counterexample: the empty buffer is (far) shorter than the minimum
header size, yet the decoder does not fail — it returns a Frame (with no
rows).  No `MalformedHeader` check exists in the code. -/
theorem c8_counterexample :
    (List.length ([] : List Nat) < 30) ∧ ((readFrame ([] : List Nat) 1).isSome = true) :=
  ⟨by decide, by decide⟩

/-- C8 amended: the decoder never validates the header size.  For a
buffer too short to contain the bits-per-pixel field (length ≤ 28), all
derived sizes are 0, and the decoder either returns an empty Frame (when
the parsed pixel-data offset is at or past the end of the buffer) or
loops forever, never returning at any fuel (when the offset lies inside
the buffer); in neither case is a `MalformedHeader` error raised. -/
theorem c8_amended (buf : List Nat) (hlen : buf.length ≤ 28) :
    ((parseHeader buf).startingAddress.toNat < buf.length →
      ∀ fuel, readFrame buf fuel = none) ∧
    (buf.length ≤ (parseHeader buf).startingAddress.toNat →
      readFrame buf (buf.length + 1) = some (fun _ _ => none)) := by
  constructor
  · intro hsa fuel
    rw [readFrame_short buf hlen fuel]
    exact pixelWalk_stuck_zero buf _ _ _ 0 fuel _ _ hsa
  · intro hsa
    rw [readFrame_short buf hlen (buf.length + 1)]
    exact pixelWalk_done buf _ _ _ 0 0 0 0 buf.length _ hsa

/-- Witness for the amended C8 on the 1-byte buffer `[0]`: the parsed
offset 0 is inside the buffer, so no fuel ever suffices. -/
theorem c8_amended_witness :
    ((List.length ([0] : List Nat) ≤ 28) ∧
      (parseHeader ([0] : List Nat)).startingAddress.toNat < List.length ([0] : List Nat)) ∧
    readFrame ([0] : List Nat) 3 = none :=
  ⟨⟨by decide, by decide⟩, (c8_amended [0] (by decide)).1 (by decide) 3⟩

end ClaimC8

section ClaimC9

/-- C9 counterexample: `c9buf` declares a 1×2 image but carries pixel
data for a single scan line.  The decoder returns a Frame anyway (no
`IncompleteFrame` error exists), with output row 0 simply absent. -/
theorem c9_counterexample :
    ((readFrame c9buf (c9buf.length + 1)).isSome = true) ∧
    cellAt c9buf 0 0 = none ∧ cellAt c9buf 1 0 = some 60 :=
  ⟨by decide, by decide, by decide⟩

/-- C9 amended: the decoder performs no completeness check and raises no
`IncompleteFrame` error.  A 24bpp buffer whose header declares `h` rows
but whose pixel data covers only `k < h` scan lines still decodes to a
Frame: the cells of the `k` decoded raw rows (output rows `h - k .. h-1`)
are populated, and every cell of the `h - k` unpopulated top rows is
absent (`none`) — absent, not zero-filled. -/
theorem c9_amended (buf : List Nat) (sa w h k : Nat)
    (hhdr : parseHeader buf = ⟨(sa : Int), (w : Int), (h : Int), 24⟩)
    (hw : 1 ≤ w) (hk : 1 ≤ k) (hkh : k < h)
    (hlen : buf.length = sa + k * stride24 w) :
    ∃ f : Frame, readFrame buf (buf.length + 1) = some f ∧
      (∀ y x : Int, (f y x).isSome ↔
        ((h : Int) - (k : Int) ≤ y ∧ y < (h : Int) ∧ 0 ≤ x ∧ x < (w : Int))) ∧
      (∀ y x : Int, 0 ≤ y → y < (h : Int) - (k : Int) → f y x = none) := by
  have heq := readFrame_eq_walk24 buf sa w h hhdr
  have hmain := walk24_main buf sa w h k hw (by omega) hlen ((k - 0) * w - 0) 0 0
    (fun _ _ => none) (by omega) (by omega) rfl
  have hpos : sa + 0 * stride24 w + 3 * 0 = sa := by ring
  rw [hpos] at hmain
  refine ⟨writesFrom buf sa w h k 0 0 (fun _ _ => none), by rw [heq]; exact hmain, ?_, ?_⟩
  · intro y x
    simp only [writesFrom]
    split_ifs with hc
    · simp only [Option.isSome_some, true_iff]
      omega
    · simp only [Option.isSome_none, Bool.false_eq_true, false_iff]
      intro hb
      exact hc (by omega)
  · intro y x hy0 hyk
    simp only [writesFrom]
    rw [if_neg]
    rintro ⟨h1, h2, h3, h4, h5, h6⟩
    omega

/-- Witness for the amended C9 on `c9buf`: header height 2, one stored
scan line; output row 1 is populated, every cell of output row 0 is
absent. -/
theorem c9_amended_witness :
    (parseHeader c9buf = ⟨(30 : Nat), (1 : Nat), (2 : Nat), 24⟩ ∧ 1 ≤ 1 ∧ 1 < 2 ∧
      c9buf.length = 30 + 1 * stride24 1) ∧
    (∃ f : Frame, readFrame c9buf (c9buf.length + 1) = some f ∧
      (∀ y x : Int, (f y x).isSome ↔
        (((2 : Nat) : Int) - ((1 : Nat) : Int) ≤ y ∧ y < ((2 : Nat) : Int) ∧
          0 ≤ x ∧ x < ((1 : Nat) : Int))) ∧
      (∀ y x : Int, 0 ≤ y → y < ((2 : Nat) : Int) - ((1 : Nat) : Int) → f y x = none)) :=
  ⟨⟨by decide, by decide, by decide, by decide⟩,
    c9_amended c9buf 30 1 2 1 (by decide) (by decide) (by decide) (by decide) (by decide)⟩

end ClaimC9

section ClaimC10

/-- C10 counterexample: the 31-byte all-zero buffer parses every header
field as 0 (in particular `bitsPerPixel = 0`), the cursor starts at 0
inside the buffer, each iteration adds 0 to it, and the pixel walk never
terminates at any fuel. -/
theorem c10_counterexample :
    (parseHeader zeros31).bpp = 0 ∧ ¬decodeTerminates zeros31 := by
  refine ⟨by decide, ?_⟩
  rintro ⟨fuel, hne⟩
  apply hne
  have hrf : readFrame zeros31 fuel =
      pixelWalk zeros31 0 0 0 0 0 0 0 fuel ⟨0, fun _ _ => none⟩ := rfl
  rw [hrf]
  exact pixelWalk_stuck_zero zeros31 0 0 0 0 fuel 0 _ (by decide)

/-- C10 amended: the pixel walk terminates whenever the parsed header
yields at least one byte per pixel (`bitsPerPixel ≥ 8`; a multiple of 8
for the integer division to match the source) and a positive width —
every iteration then advances the cursor by at least one byte.  With
`bitsPerPixel = 0` (so `bytesPerPixel = 0`) and a pixel-data offset
inside the buffer it does not terminate (see the counterexample). -/
theorem c10_amended (buf : List Nat)
    (hw : 1 ≤ (parseHeader buf).widthInPixels.toNat)
    (hbpp : 8 ≤ (parseHeader buf).bpp.toNat) :
    decodeTerminates buf := by
  have hterm : (readFrame buf (buf.length + 1)).isSome := by
    show (pixelWalk buf (parseHeader buf).startingAddress.toNat
      (parseHeader buf).widthInPixels.toNat
      (parseHeader buf).heightInPixels.toNat
      ((parseHeader buf).bpp.toNat / 8)
      ((parseHeader buf).bpp.toNat / 8 * (parseHeader buf).widthInPixels.toNat)
      ((parseHeader buf).bpp.toNat / 8 * (parseHeader buf).widthInPixels.toNat % 4)
      ((parseHeader buf).bpp.toNat / 8 / 3) (buf.length + 1)
      ⟨(parseHeader buf).startingAddress.toNat, fun _ _ => none⟩).isSome
    exact pixelWalk_isSome buf _ _ _ _ _ _ _ rfl (by omega) hw (buf.length + 1) _ (by
      show buf.length - (parseHeader buf).startingAddress.toNat < buf.length + 1
      omega)
  refine ⟨buf.length + 1, fun hnone => ?_⟩
  rw [hnone] at hterm
  simp at hterm

/-- Witness for the amended C10 on the well-formed buffer `c1buf`. -/
theorem c10_amended_witness :
    (1 ≤ (parseHeader c1buf).widthInPixels.toNat ∧
      8 ≤ (parseHeader c1buf).bpp.toNat) ∧ decodeTerminates c1buf :=
  ⟨⟨by decide, by decide⟩, c10_amended c1buf (by decide) (by decide)⟩

end ClaimC10

section SchedulerLemmas

theorem runAllGo_zero (n cap interval : Nat) (elapsed : Nat → Nat) (i : Nat) (q : List Nat) :
    runAllGo n cap interval elapsed 0 i q = Except.ok [] := rfl

theorem runAllGo_nil (n cap interval : Nat) (elapsed : Nat → Nat) (rem i : Nat) :
    runAllGo n cap interval elapsed (rem + 1) i [] =
      Except.error "Child pool empty" := rfl

theorem runAllGo_cons (n cap interval : Nat) (elapsed : Nat → Nat) (rem i : Nat)
    (child : Nat) (rest : List Nat) :
    runAllGo n cap interval elapsed (rem + 1) i (child :: rest) =
      match runAllGo n cap interval elapsed rem (i + 1)
          (if i + cap < n then rest ++ [i + cap] else rest) with
      | Except.error e => Except.error e
      | Except.ok logs =>
        let log : IterLog :=
          { dequeued := child
            replenished := if i + cap < n then some (i + cap) else none
            queueLenAfter := (if i + cap < n then rest ++ [i + cap] else rest).length
            elapsedMs := elapsed i
            sleepMs := max ((interval : Int) - (elapsed i : Int)) 0 }
        Except.ok (log :: logs) := rfl

/-- A complete run of the loop from iteration `i` with the in-flight pool
`[i, i+1, ..]` (of size `min cap remaining`) produces exactly the closed
form logs. -/
theorem runAllGo_spec (n cap interval : Nat) (elapsed : Nat → Nat) (hcap : 1 ≤ cap) :
    ∀ rem i : Nat, rem + i = n →
      runAllGo n cap interval elapsed rem i (List.range' i (min cap rem)) =
        Except.ok ((List.range' i rem).map (simLog n cap interval elapsed)) := by
  intro rem
  induction rem with
  | zero =>
    intro i hi
    rfl
  | succ m ih =>
    intro i hi
    have h1 : min cap (m + 1) = (min cap (m + 1) - 1) + 1 := by omega
    rw [h1, List.range'_succ]
    rw [runAllGo_cons]
    by_cases hrep : i + cap < n
    · have hcm : cap ≤ m := by omega
      have h2 : min cap (m + 1) - 1 = cap - 1 := by omega
      have h3 : (if i + cap < n then List.range' (i + 1) (cap - 1) ++ [i + cap]
          else List.range' (i + 1) (cap - 1)) = List.range' (i + 1) (min cap m) := by
        rw [if_pos hrep]
        have h4 : [i + cap] = List.range' (i + 1 + 1 * (cap - 1)) 1 := by
          have : i + 1 + 1 * (cap - 1) = i + cap := by omega
          rw [this]
          rfl
        rw [h4, List.range'_append]
        congr 1
        omega
      rw [h2, h3, ih (i + 1) (by omega)]
      show Except.ok (_ :: _) = _
      rw [List.range'_succ, List.map_cons]
      congr 2
      show ({ dequeued := i
              replenished := if i + cap < n then some (i + cap) else none
              queueLenAfter := (List.range' (i + 1) (min cap m)).length
              elapsedMs := elapsed i
              sleepMs := max ((interval : Int) - (elapsed i : Int)) 0 } : IterLog) =
          simLog n cap interval elapsed i
      rw [List.length_range']
      unfold simLog
      congr 1
      omega
    · have hcm : m + 1 ≤ cap := by omega
      have h2 : min cap (m + 1) - 1 = m := by omega
      have h3 : (if i + cap < n then List.range' (i + 1) m ++ [i + cap]
          else List.range' (i + 1) m) = List.range' (i + 1) (min cap m) := by
        rw [if_neg hrep]
        congr 1
        omega
      rw [h2, h3, ih (i + 1) (by omega)]
      show Except.ok (_ :: _) = _
      rw [List.range'_succ, List.map_cons]
      congr 2
      show ({ dequeued := i
              replenished := if i + cap < n then some (i + cap) else none
              queueLenAfter := (List.range' (i + 1) (min cap m)).length
              elapsedMs := elapsed i
              sleepMs := max ((interval : Int) - (elapsed i : Int)) 0 } : IterLog) =
          simLog n cap interval elapsed i
      rw [List.length_range']
      unfold simLog
      congr 1
      omega

/-- Closed form of a full simulated run. -/
theorem runAllSim_spec (n fps : Nat) (elapsed : Nat → Nat) :
    runAllSim n fps elapsed =
      Except.ok ((List.range n).map (simLog n (min 10 n) (millisBetweenFrames fps) elapsed)) := by
  rcases Nat.eq_zero_or_pos n with hn | hn
  · subst hn
    rfl
  · show runAllGo n (min 10 n) (millisBetweenFrames fps) elapsed n 0 (List.range (min 10 n)) = _
    have hq : List.range (min 10 n) = List.range' 0 (min (min 10 n) n) := by
      rw [List.range_eq_range']
      congr 1
      omega
    rw [hq, List.range_eq_range']
    exact runAllGo_spec n (min 10 n) (millisBetweenFrames fps) elapsed (by omega) n 0 (by omega)

end SchedulerLemmas

section ClaimC4

/-- C4 counterexample: three files with embedded 5-digit keys `00002`,
`00010`, `00001`.  The key width is derived from the file count
(`(toString 3).length = 1`), so only the first key digit `0` is read from
each name; all keys parse equal, the stable sort keeps directory order,
and the claimed sequence `00001, 00002, 00010` is not produced. -/
theorem c4_counterexample :
    sortFrameFiles files3 = ["out_00002.bmp", "out_00010.bmp", "out_00001.bmp"] ∧
    sortFrameFiles files3 ≠ ["out_00001.bmp", "out_00002.bmp", "out_00010.bmp"] :=
  ⟨by decide, by decide⟩

/-- C4 amended: the catalog sorts by the parsed numeric value of the key
substring `slice(4, 4 + digits)` — never by raw string comparison — but
`digits` is the decimal width of the file count, so only that many key
characters are read.  When the embedded keys fit that width the order is
numeric ascending (ten files with keys 1..10 sort with 10 after 9, where
a lexical sort would put "10" right after "1"); when the keys are wider
(three files with 5-digit keys) the truncated keys compare equal and the
stable sort leaves the directory order unchanged. -/
theorem c4_amended :
    sortFrameFiles files10 =
      ["out_1.bmp", "out_2.bmp", "out_3.bmp", "out_4.bmp", "out_5.bmp",
       "out_6.bmp", "out_7.bmp", "out_8.bmp", "out_9.bmp", "out_10.bmp"] ∧
    sortFrameFiles files3 = files3 :=
  ⟨by decide, by decide⟩

end ClaimC4

section ClaimC5

/-- C5: the scheduler pre-starts exactly `min 10 n` workers, dequeues
worker `i` at iteration `i` (strict index order), forks and enqueues
worker `i + min 10 n` at the tail exactly when `i + min 10 n < n`, and
the pool size right after replenishment is again exactly `min 10 n`
whenever a replenishment happened (steady state). -/
theorem c5_scheduler_pool (n fps : Nat) (elapsed : Nat → Nat) (i : Nat) (hi : i < n) :
    runAllSim n fps elapsed =
      runAllGo n (min 10 n) (millisBetweenFrames fps) elapsed n 0 (List.range (min 10 n)) ∧
    ∃ logs : List IterLog, ∃ l : IterLog,
      runAllSim n fps elapsed = Except.ok logs ∧ logs.length = n ∧
      logs[i]? = some l ∧ l.dequeued = i ∧
      l.replenished = (if i + min 10 n < n then some (i + min 10 n) else none) ∧
      (i + min 10 n < n → l.queueLenAfter = min 10 n) := by
  refine ⟨rfl, _, simLog n (min 10 n) (millisBetweenFrames fps) elapsed i,
    runAllSim_spec n fps elapsed, ?_, ?_, rfl, rfl, ?_⟩
  · rw [List.length_map, List.length_range]
  · rw [List.getElem?_map, List.getElem?_range hi]
    rfl
  · intro hlt
    show min (min 10 n) (n - (i + 1)) = min 10 n
    omega

/-- Witness for C5: 20 frames at 10 fps, pool capacity 10, frame 0. -/
theorem c5_scheduler_pool_witness :
    (0 < 20) ∧
    (runAllSim 20 10 (fun _ => 40) =
      runAllGo 20 (min 10 20) (millisBetweenFrames 10) (fun _ => 40) 20 0
        (List.range (min 10 20)) ∧
    ∃ logs : List IterLog, ∃ l : IterLog,
      runAllSim 20 10 (fun _ => 40) = Except.ok logs ∧ logs.length = 20 ∧
      logs[0]? = some l ∧ l.dequeued = 0 ∧
      l.replenished = (if 0 + min 10 20 < 20 then some (0 + min 10 20) else none) ∧
      (0 + min 10 20 < 20 → l.queueLenAfter = min 10 20)) :=
  ⟨by decide, c5_scheduler_pool 20 10 (fun _ => 40) 0 (by decide)⟩

end ClaimC5

section ClaimC6

/-- C6: after frame `i` completes, the scheduler sleeps exactly
`max(millisBetweenFrames - elapsed_i, 0)` milliseconds, where
`millisBetweenFrames = round(1000 / fps)` is a per-run constant and
`elapsed_i` is that frame's own measured elapsed time — the recorded
sleep of iteration `i` depends on no other frame's timing. -/
theorem c6_pacing (n fps : Nat) (elapsed : Nat → Nat) (i : Nat) (hi : i < n) :
    ∃ logs : List IterLog, ∃ l : IterLog,
      runAllSim n fps elapsed = Except.ok logs ∧ logs[i]? = some l ∧
      l.elapsedMs = elapsed i ∧
      l.sleepMs = max ((millisBetweenFrames fps : Int) - (elapsed i : Int)) 0 := by
  refine ⟨_, simLog n (min 10 n) (millisBetweenFrames fps) elapsed i,
    runAllSim_spec n fps elapsed, ?_, rfl, rfl⟩
  rw [List.getElem?_map, List.getElem?_range hi]
  rfl

/-- Witness for C6: at `fps = 10` the interval is 100 ms; a 40 ms frame
yields a 60 ms sleep and a 150 ms frame a 0 ms sleep. -/
theorem c6_pacing_witness :
    (0 < 2) ∧
    (∃ logs : List IterLog, ∃ l : IterLog,
      runAllSim 2 10 (fun k => if k = 0 then 40 else 150) = Except.ok logs ∧
      logs[0]? = some l ∧
      l.elapsedMs = (fun k => if k = 0 then 40 else 150) 0 ∧
      l.sleepMs = max ((millisBetweenFrames 10 : Int)
        - ((fun k => if k = 0 then 40 else 150) 0 : Nat)) 0) ∧
    (millisBetweenFrames 10 = 100 ∧ max ((100 : Int) - 40) 0 = 60 ∧
      max ((100 : Int) - 150) 0 = 0) :=
  ⟨by decide, c6_pacing 2 10 (fun k => if k = 0 then 40 else 150) 0 (by decide),
    by decide, by decide, by decide⟩

end ClaimC6

section ClaimC7

/-- C7: whenever the main loop still has an iteration to run and the pool
is empty, the dequeue fails fatally with the pool-exhausted error
(`"Child pool empty"`), and the run never yields a result for that or any
later iteration. -/
theorem c7_pool_exhausted (n cap interval : Nat) (elapsed : Nat → Nat) (rem i : Nat) :
    runAllGo n cap interval elapsed (rem + 1) i [] = Except.error "Child pool empty" ∧
    ∀ logs : List IterLog, runAllGo n cap interval elapsed (rem + 1) i [] ≠ Except.ok logs := by
  refine ⟨rfl, fun logs h => ?_⟩
  rw [runAllGo_nil] at h
  exact Except.noConfusion h

end ClaimC7
